import Mathlib

/-!
Shallow embedding of `dissect/target/helpers/locate/everything.py`
(`EverythingDBParser` and its helpers).

Byte streams are modelled as `List Nat` (each element a byte value, 0..255),
read front-to-back, exactly like the forward-only file handle in the source.
Python's `fh.read(n)` returns *up to* `n` bytes (fewer at EOF) without error,
which `readBytes` models with `take`/`drop`.  Python exceptions are modelled
with `Except PErr`.  Strings decoded from bytes are kept as their UTF-8 byte
lists (decoding is injective and concatenation of valid UTF-8 strings is
concatenation of their byte lists), with `utf8Valid` playing the role of
`bytes.decode()` succeeding; the backslash separator `"\\"` is byte 92.
-/

namespace Everything

/-- Python exception classes raised by the parser, by name. -/
inductive PErr where
  | indexError
  | typeError
  | recursionError
  | unicodeDecodeError
  | notImplementedError (msg : String)
  | valueError (msg : String) (data : List Nat)
  deriving Repr, DecidableEq

/-- `FILE_MAGIC = b"ESDb"`. -/
def FILE_MAGIC : List Nat := [0x45, 0x53, 0x44, 0x62]

/-- `UNSUPPORTED_FILE_MAGIC = b"EZDB"`. -/
def UNSUPPORTED_FILE_MAGIC : List Nat := [0x45, 0x5A, 0x44, 0x42]

/-- `DIRECTORY = "directory"`. -/
def DIRECTORY : String := "directory"

/-- `FILE = "file"`. -/
def FILE : String := "file"

/-- `EverythingFSType` (NTFS = 0, EFU = 1, FOLDER = 2, REFS = 3). -/
inductive EverythingFSType where
  | NTFS
  | EFU
  | FOLDER
  | REFS
  deriving Repr, DecidableEq

/-- `EverythingFlags` bit values. -/
def HasFileSize : Nat := 1
def HasDateCreated : Nat := 2
def HasDateModified : Nat := 4
def HasDateAccessed : Nat := 8
def HasAttributes : Nat := 16
def HasFolderSize : Nat := 32

/-- Python `flag in self.flags` for an `IntFlag`: `(flags & flag) == flag`. -/
def hasFlag (flags b : Nat) : Bool := flags &&& b == b

/-- `int.from_bytes(bs, byteorder="little")`. -/
def leNat : List Nat → Nat
  | [] => 0
  | b :: rest => b + 256 * leNat rest

/-- `EverythingDBParser.read(i)`: `self.fh.read(i)` returns up to `i` bytes
(fewer when the source is exhausted) together with the rest of the stream. -/
def readBytes (s : List Nat) (n : Nat) : List Nat × List Nat :=
  (s.take n, s.drop n)

/-- `read_u8`: `self.fh.read(1)[0]` — `IndexError` at EOF. -/
def readU8 (s : List Nat) : Except PErr (Nat × List Nat) :=
  match s with
  | [] => .error .indexError
  | b :: rest => .ok (b, rest)

/-- `read_u32`: `int.from_bytes(self.fh.read(4), "little")` — note that at
EOF this silently computes the value from however many bytes remain. -/
def readU32 (s : List Nat) : Nat × List Nat :=
  let (d, r) := readBytes s 4
  (leNat d, r)

/-- `read_u64`, same silent-short-read behaviour as `read_u32`. -/
def readU64 (s : List Nat) : Nat × List Nat :=
  let (d, r) := readBytes s 8
  (leNat d, r)

/-- `read_byte_or_4`: reads one byte (`IndexError` on an empty stream);
a first byte of `0xFF` raises `NotImplementedError` — the 4-byte branch in
the source is unreachable dead code behind that raise. -/
def readByteOr4 (s : List Nat) : Except PErr (Nat × List Nat) :=
  match s with
  | [] => .error .indexError
  | b :: rest =>
    if b = 0xFF then
      .error (.notImplementedError
        "Untested feature, can remove comment and see if this still works :)")
    else
      .ok (b, rest)

/-- `read_len_then_data`: a byte-or-4 length then that many bytes. -/
def readLenThenData (s : List Nat) : Except PErr (List Nat × List Nat) := do
  let (n, s1) ← readByteOr4 s
  .ok (readBytes s1 n)

/-- Strict UTF-8 validity as checked by Python `bytes.decode()`:
no bytes over 0xF4, no overlong forms, no surrogates, max U+10FFFF. -/
def utf8Valid : List Nat → Bool
  | [] => true
  | b :: rest =>
    if b < 0x80 then utf8Valid rest
    else if b < 0xC2 then false
    else if b < 0xE0 then
      match rest with
      | c1 :: r => decide (0x80 ≤ c1) && decide (c1 < 0xC0) && utf8Valid r
      | [] => false
    else if b < 0xF0 then
      match rest with
      | c1 :: c2 :: r =>
        let lo := if b = 0xE0 then 0xA0 else 0x80
        let hi := if b = 0xED then 0xA0 else 0xC0
        decide (lo ≤ c1) && decide (c1 < hi) &&
          decide (0x80 ≤ c2) && decide (c2 < 0xC0) && utf8Valid r
      | _ => false
    else if b < 0xF5 then
      match rest with
      | c1 :: c2 :: c3 :: r =>
        let lo := if b = 0xF0 then 0x90 else 0x80
        let hi := if b = 0xF4 then 0x90 else 0xC0
        decide (lo ≤ c1) && decide (c1 < hi) &&
          decide (0x80 ≤ c2) && decide (c2 < 0xC0) &&
          decide (0x80 ≤ c3) && decide (c3 < 0xC0) && utf8Valid r
      | _ => false
    else false

/-- The shared-prefix name step common to the folder pass (lines 268-274)
and the file pass (lines 342-348), with the pass-specific `ValueError`
message: read byte-or-4 `str_len`; if nonzero read byte-or-4
`remove_from_prev`, fail when it exceeds the current buffer length, else
truncate; then append the next `str_len` freshly read bytes. -/
def nameStep (msg : String) (buf s : List Nat) :
    Except PErr (List Nat × List Nat) :=
  match readByteOr4 s with
  | .error e => .error e
  | .ok (k, s1) =>
    if k ≠ 0 then
      match readByteOr4 s1 with
      | .error e => .error e
      | .ok (d, s2) =>
        if buf.length < d then .error (.valueError msg [])
        else .ok (buf.take (buf.length - d) ++ s2.take k, s2.drop k)
    else .ok (buf ++ s1.take k, s1.drop k)

/-- `EverythingIndexObj`.  `file_path` holds the UTF-8 bytes of the decoded
basename (set during the folder name pass; `[]` models the initial `None`). -/
structure EverythingIndexObj where
  fs_index : Option Nat := none
  file_path : List Nat := []
  parent_index : Option Nat := none
  size : Option Nat := none
  date_created : Option Nat := none
  date_modified : Option Nat := none
  date_accessed : Option Nat := none
  attributes : Option Nat := none
  deriving Repr, DecidableEq

/-- `EverythingF` output record.  `file_path` is the UTF-8 bytes of the path
string; a `some v` in a date field denotes `wintimestamp(v)` — the raw value
passed to the external timestamp-conversion collaborator (see `wintsOrNone`). -/
structure EverythingF where
  file_path : List Nat
  size : Option Nat
  date_created : Option Nat
  date_modified : Option Nat
  date_accessed : Option Nat
  attributes : Option Nat
  file_type : String
  deriving Repr, DecidableEq

/-- The parser fields established by `__init__` that `__iter__` reads. -/
structure PState where
  flags : Nat
  number_of_folders : Nat
  number_of_files : Nat
  total_filesystem_num : Nat
  filesystem_list : List EverythingFSType
  deriving Repr, DecidableEq

/-- `wintimestamp(x) if x else None` at the emission sites: `None` and a raw
value of `0` are falsy and emit `None`; a nonzero raw value `v` emits
`wintimestamp(v)`, which we represent by its (injective) argument `v` since
the conversion itself is an external collaborator. -/
def wintsOrNone (x : Option Nat) : Option Nat :=
  match x with
  | none => none
  | some v => if v = 0 then none else some v

/-- One entry of the folder linkage pass (`__iter__` lines 229-240): read a
32-bit `parent_index`; out of range of folders plus filesystems is a
`ValueError`; at least `number_of_folders` denotes a filesystem root;
otherwise a parent folder. -/
def folderLinkStep (nf fsn : Nat) (s : List Nat) :
    Except PErr (EverythingIndexObj × List Nat) :=
  let pi := (readU32 s).1
  let s1 := (readU32 s).2
  if fsn + nf ≤ pi then .error (.valueError "Invalid folder offset" [])
  else if nf ≤ pi then .ok ({ fs_index := some (pi - nf) }, s1)
  else .ok ({ parent_index := some pi }, s1)

/-- Phase A: `folder_list` of `number_of_folders` fresh objects, each linked
by `folderLinkStep` in table order. -/
def phaseA (nf fsn : Nat) : Nat → List Nat →
    Except PErr (List EverythingIndexObj × List Nat)
  | 0, s => .ok ([], s)
  | n + 1, s =>
    match folderLinkStep nf fsn s with
    | .error e => .error e
    | .ok (o, s1) =>
      match phaseA nf fsn n s1 with
      | .error e => .error e
      | .ok (os, s2) => .ok (o :: os, s2)

/-- `EverythingIndexObj.resolve_fs`: return `fs_index` if set, else recurse
into the parent.  Fuel models Python's recursion limit: an acyclic parent
chain needs at most `folder_list.length` hops, a cyclic one exhausts any
fuel exactly as the source exhausts the interpreter recursion limit. -/
def resolveFs (fl : List EverythingIndexObj) :
    Nat → EverythingIndexObj → Except PErr Nat
  | 0, _ => .error .recursionError
  | fuel + 1, o =>
    match o.fs_index with
    | some i => .ok i
    | none =>
      match o.parent_index with
      | some p =>
        match fl.get? p with
        | some po => resolveFs fl fuel po
        | none => .error .indexError
      | none => .error .typeError

/-- Phase B (`__iter__` lines 243-244): `f.fs_index = f.resolve_fs(folder_list)`
for each folder in order, with the in-place update visible to later
resolutions (memoization), as in the source. -/
def phaseBAux (fl : List EverythingIndexObj) (i : Nat) :
    Nat → Except PErr (List EverythingIndexObj)
  | 0 => .ok fl
  | n + 1 =>
    match fl.get? i with
    | none => .ok fl
    | some o =>
      match resolveFs fl (fl.length + 1) o with
      | .error e => .error e
      | .ok fs => phaseBAux (fl.set i { o with fs_index := some fs }) (i + 1) n

def phaseB (fl : List EverythingIndexObj) : Except PErr (List EverythingIndexObj) :=
  phaseBAux fl 0 fl.length

/-- The flag-gated metadata reads of the folder pass (`__iter__` lines
282-291), in the fixed source order: folder size, created, modified,
accessed (u64 each), then attributes (u32, overriding the default 16). -/
def readFolderMeta (st : PState) (o : EverythingIndexObj) (s : List Nat) :
    EverythingIndexObj × List Nat :=
  let r1 : EverythingIndexObj × List Nat :=
    if hasFlag st.flags HasFolderSize then
      ({ o with size := some (readU64 s).1 }, (readU64 s).2)
    else (o, s)
  let r2 : EverythingIndexObj × List Nat :=
    if hasFlag st.flags HasDateCreated then
      ({ r1.1 with date_created := some (readU64 r1.2).1 }, (readU64 r1.2).2)
    else r1
  let r3 : EverythingIndexObj × List Nat :=
    if hasFlag st.flags HasDateModified then
      ({ r2.1 with date_modified := some (readU64 r2.2).1 }, (readU64 r2.2).2)
    else r2
  let r4 : EverythingIndexObj × List Nat :=
    if hasFlag st.flags HasDateAccessed then
      ({ r3.1 with date_accessed := some (readU64 r3.2).1 }, (readU64 r3.2).2)
    else r3
  if hasFlag st.flags HasAttributes then
    ({ r4.1 with attributes := some (readU32 r4.2).1 }, (readU32 r4.2).2)
  else r4

/-- The filesystem-kind trailing block of the folder pass (`__iter__` lines
292-308): NTFS consumes 8 bytes, REFS 16 bytes, EFU consumes nothing but
discards size/created/modified/accessed when the folder has no folder
parent (a filesystem root), FOLDER consumes nothing. -/
def folderFsTail (st : PState) (o : EverythingIndexObj) (s : List Nat) :
    Except PErr (EverythingIndexObj × List Nat) :=
  match o.fs_index with
  | none => .error .typeError
  | some i =>
    match st.filesystem_list.get? i with
    | none => .error .indexError
    | some .NTFS => .ok (o, (readU64 s).2)
    | some .REFS => .ok (o, (readU64 (readU64 s).2).2)
    | some .EFU =>
      if o.parent_index = none then
        .ok ({ o with date_accessed := none, date_modified := none,
                      date_created := none, size := none }, s)
      else .ok (o, s)
    | some .FOLDER => .ok (o, s)

/-- One folder of the name/metadata pass (`__iter__` lines 248-308):
shared-prefix name step, decode (a `UnicodeDecodeError` here is uncaught),
hardcoded directory attributes 16, flag-gated metadata, kind trailing block. -/
def folderStep (st : PState) (o : EverythingIndexObj) (buf s : List Nat) :
    Except PErr (EverythingIndexObj × List Nat × List Nat) :=
  match nameStep "Invalid folder code offset" buf s with
  | .error e => .error e
  | .ok (buf1, s1) =>
    if utf8Valid buf1 then
      let o1 := { o with file_path := buf1, attributes := some 16 }
      let o2 := (readFolderMeta st o1 s1).1
      let s2 := (readFolderMeta st o1 s1).2
      match folderFsTail st o2 s2 with
      | .error e => .error e
      | .ok (o3, s3) => .ok (o3, buf1, s3)
    else .error .unicodeDecodeError

/-- Phase C: fold `folderStep` over the folder list, threading the rolling
name buffer (initially `b""`) and the stream. -/
def phaseC (st : PState) : List EverythingIndexObj → List Nat → List Nat →
    Except PErr (List EverythingIndexObj × List Nat × List Nat)
  | [], buf, s => .ok ([], buf, s)
  | o :: os, buf, s =>
    match folderStep st o buf s with
    | .error e => .error e
    | .ok (o1, buf1, s1) =>
      match phaseC st os buf1 s1 with
      | .error e => .error e
      | .ok (os1, buf2, s2) => .ok (o1 :: os1, buf2, s2)

/-- `EverythingIndexObj.resolve_path`: parent path, backslash (byte 92),
own basename; a node without a folder parent is its own basename.  Fuel as
in `resolveFs`. -/
def resolvePath (fl : List EverythingIndexObj) :
    Nat → EverythingIndexObj → Except PErr (List Nat)
  | 0, _ => .error .recursionError
  | fuel + 1, o =>
    match o.parent_index with
    | some p =>
      match fl.get? p with
      | some po =>
        match resolvePath fl fuel po with
        | .error e => .error e
        | .ok pp => .ok (pp ++ 92 :: o.file_path)
      | none => .error .indexError
    | none => .ok o.file_path

/-- The folder emission (`__iter__` lines 310-319) for one resolved path. -/
def mkDirRecord (p : List Nat) (o : EverythingIndexObj) : EverythingF :=
  { file_path := p
    size := o.size
    attributes := o.attributes
    date_created := wintsOrNone o.date_created
    date_modified := wintsOrNone o.date_modified
    date_accessed := wintsOrNone o.date_accessed
    file_type := DIRECTORY }

def phaseDAux (fl0 : List EverythingIndexObj) :
    List EverythingIndexObj → Except PErr (List EverythingF)
  | [] => .ok []
  | o :: os =>
    match resolvePath fl0 (fl0.length + 1) o with
    | .error e => .error e
    | .ok p =>
      match phaseDAux fl0 os with
      | .error e => .error e
      | .ok rs => .ok (mkDirRecord p o :: rs)

/-- Phase D: emit one Directory record per folder, in table order. -/
def phaseD (fl : List EverythingIndexObj) : Except PErr (List EverythingF) :=
  phaseDAux fl fl

/-- The flag-gated metadata reads of the file pass (`__iter__` lines
349-353): size, created, modified, accessed (u64 each), attributes (u32),
each `none` when its flag is unset. -/
def readFileMeta (st : PState) (s : List Nat) :
    (Option Nat × Option Nat × Option Nat × Option Nat × Option Nat) × List Nat :=
  let r1 : Option Nat × List Nat :=
    if hasFlag st.flags HasFileSize then (some (readU64 s).1, (readU64 s).2)
    else (none, s)
  let r2 : Option Nat × List Nat :=
    if hasFlag st.flags HasDateCreated then (some (readU64 r1.2).1, (readU64 r1.2).2)
    else (none, r1.2)
  let r3 : Option Nat × List Nat :=
    if hasFlag st.flags HasDateModified then (some (readU64 r2.2).1, (readU64 r2.2).2)
    else (none, r2.2)
  let r4 : Option Nat × List Nat :=
    if hasFlag st.flags HasDateAccessed then (some (readU64 r3.2).1, (readU64 r3.2).2)
    else (none, r3.2)
  let r5 : Option Nat × List Nat :=
    if hasFlag st.flags HasAttributes then (some (readU32 r4.2).1, (readU32 r4.2).2)
    else (none, r4.2)
  ((r1.1, r2.1, r3.1, r4.1, r5.1), r5.2)

/-- One entry of the file pass (`__iter__` lines 321-367): read the explicit
32-bit parent index with its two bound checks, resolve the parent folder
path, shared-prefix name step on the second rolling buffer, flag-gated
metadata, then the guarded yield — a basename that fails to decode skips
the record (`none`) while the buffer and stream state advance identically. -/
def fileStep (st : PState) (fl : List EverythingIndexObj) (buf s : List Nat) :
    Except PErr (Option EverythingF × List Nat × List Nat) :=
  let pi := (readU32 s).1
  let s1 := (readU32 s).2
  if st.total_filesystem_num + st.number_of_folders < pi then
    .error (.valueError "Invalid parent folder offset" [])
  else if st.number_of_folders ≤ pi then
    .error (.valueError "Something weird, this points to filesystem_index" [])
  else
    match fl.get? pi with
    | none => .error .indexError
    | some po =>
      match resolvePath fl (fl.length + 1) po with
      | .error e => .error e
      | .ok file_name =>
        match nameStep "Invalid file code offset" buf s1 with
        | .error e => .error e
        | .ok (buf1, s2) =>
          let meta := (readFileMeta st s2).1
          let s3 := (readFileMeta st s2).2
          if utf8Valid buf1 then
            .ok (some { file_path := file_name ++ 92 :: buf1
                        size := meta.1
                        attributes := meta.2.2.2.2
                        date_created := wintsOrNone meta.2.1
                        date_modified := wintsOrNone meta.2.2.1
                        date_accessed := wintsOrNone meta.2.2.2.1
                        file_type := FILE },
                 buf1, s3)
          else .ok (none, buf1, s3)

/-- Phase E: `number_of_files` iterations of `fileStep` on a fresh rolling
buffer; `none` entries are the skipped (undecodable) records. -/
def phaseE (st : PState) (fl : List EverythingIndexObj) :
    Nat → List Nat → List Nat →
    Except PErr (List (Option EverythingF) × List Nat × List Nat)
  | 0, buf, s => .ok ([], buf, s)
  | n + 1, buf, s =>
    match fileStep st fl buf s with
    | .error e => .error e
    | .ok (r, buf1, s1) =>
      match phaseE st fl n buf1 s1 with
      | .error e => .error e
      | .ok (rs, buf2, s2) => .ok (r :: rs, buf2, s2)

/-- `__iter__` end to end, from the post-`__init__` parser state and the
remaining stream: folder linkage, filesystem resolution, folder
name/metadata pass, folder emission, then the file pass; the record
sequence is the Directory records followed by the emitted File records. -/
def iterParse (st : PState) (s : List Nat) : Except PErr (List EverythingF) :=
  match phaseA st.number_of_folders st.total_filesystem_num st.number_of_folders s with
  | .error e => .error e
  | .ok (fl1, s1) =>
    match phaseB fl1 with
    | .error e => .error e
    | .ok fl2 =>
      match phaseC st fl2 [] s1 with
      | .error e => .error e
      | .ok (fl3, _, s2) =>
        match phaseD fl3 with
        | .error e => .error e
        | .ok dirs =>
          match phaseE st fl3 st.number_of_files [] s2 with
          | .error e => .error e
          | .ok (fopts, _, _) => .ok (dirs ++ fopts.filterMap id)

/-- The magic dispatch of `__init__` (lines 101-105) after any bzip2
redirection: the legacy magic raises `NotImplementedError`; any other
non-`ESDb` magic raises `ValueError` whose f-string message embeds
`magic.decode()` — so when the magic bytes are not valid UTF-8 the
`UnicodeDecodeError` from building that message escapes instead. -/
def magicCheck (magic : List Nat) : Except PErr Unit :=
  if magic = UNSUPPORTED_FILE_MAGIC then
    .error (.notImplementedError "EZDB files are not yet supported")
  else if magic ≠ FILE_MAGIC then
    if utf8Valid magic then
      .error (.valueError "is not a known EverythingDB file. Magic:" magic)
    else .error .unicodeDecodeError
  else .ok ()

/-! ## Theorems -/

/-- C1: Shared-prefix name reconstruction round-trip: in both passes (the
step is the same code with a pass-specific error message), for an entry with
`keep_len = k ≠ 0` and `drop_from_prev = d ≤ buffer length`, the
reconstructed basename is the previous rolling buffer with its last `d`
bytes removed followed by the next `k` bytes read from the stream; when
`k = 0` no drop count is read and the basename is the previous buffer
unchanged. -/
theorem c1_shared_prefix_roundtrip :
    (∀ (msg : String) (buf rest : List Nat) (k d : Nat),
      k ≠ 255 → k ≠ 0 → d ≠ 255 → d ≤ buf.length →
      nameStep msg buf (k :: d :: rest)
        = .ok (buf.take (buf.length - d) ++ rest.take k, rest.drop k)) ∧
    (∀ (msg : String) (buf rest : List Nat),
      nameStep msg buf (0 :: rest) = .ok (buf, rest)) := by
  constructor
  · intro msg buf rest k d hk255 hk0 hd255 hd
    simp [nameStep, readByteOr4, hk255, hk0, hd255, Nat.not_lt.mpr hd]
  · intro msg buf rest
    simp [nameStep, readByteOr4]

theorem c1_witness :
    nameStep "x" [80, 111] [2, 1, 65, 66, 67] = .ok ([80, 65, 66], [67])
    ∧ nameStep "x" [80] [0, 1, 2] = .ok ([80], [1, 2]) :=
  ⟨c1_shared_prefix_roundtrip.1 "x" [80, 111] [65, 66, 67] 2 1
      (by decide) (by decide) (by decide) (by decide),
   c1_shared_prefix_roundtrip.2 "x" [80] [1, 2]⟩

/-- C2: In both passes, a decoded `drop_from_prev` strictly greater than the
rolling buffer length fails with `CorruptIndex` (the `ValueError` carrying
the pass-specific message) and is never clamped; equality with the buffer
length is accepted and empties the buffer before the fresh bytes are
appended. -/
theorem c2_drop_bound :
    (∀ (msg : String) (buf rest : List Nat) (k d : Nat),
      k ≠ 255 → k ≠ 0 → d ≠ 255 → buf.length < d →
      nameStep msg buf (k :: d :: rest) = .error (.valueError msg [])) ∧
    (∀ (msg : String) (buf rest : List Nat) (k : Nat),
      k ≠ 255 → k ≠ 0 → buf.length ≠ 255 →
      nameStep msg buf (k :: buf.length :: rest)
        = .ok (rest.take k, rest.drop k)) := by
  constructor
  · intro msg buf rest k d hk255 hk0 hd255 hd
    simp [nameStep, readByteOr4, hk255, hk0, hd255, hd]
  · intro msg buf rest k hk255 hk0 hlen
    simp [nameStep, readByteOr4, hk255, hk0, hlen]

theorem c2_witness :
    nameStep "y" [80, 111] [1, 3, 65] = .error (.valueError "y" [])
    ∧ nameStep "y" [80, 111] [1, 2, 65] = .ok ([65], []) :=
  ⟨c2_drop_bound.1 "y" [80, 111] [65] 1 3 (by decide) (by decide) (by decide)
      (by decide),
   c2_drop_bound.2 "y" [80, 111] [65] 1 (by decide) (by decide) (by decide)⟩

/-- C7 counterexample: at the concrete stream `FF 01 00 00 00` the claim
predicts the value 1 with the cursor past the 4 trailing bytes, but
`read_byte_or_4` raises `NotImplementedError` on the `0xFF` sentinel. -/
theorem c7_counterexample :
    readByteOr4 [255, 1, 0, 0, 0]
      = .error (.notImplementedError
          "Untested feature, can remove comment and see if this still works :)")
    ∧ readByteOr4 [255, 1, 0, 0, 0] ≠ .ok (1, [0, 0, 0])
    ∧ readByteOr4 [255, 1, 0, 0, 0] ≠ .ok (1, []) := by
  refine ⟨rfl, ?_, ?_⟩ <;> simp [readByteOr4]

/-- C7 amended: `read_byte_or_4` reads one byte; for every first byte other
than `0xFF` it returns that byte value (0-254); for a first byte of `0xFF`
it raises `NotImplementedError` (the 4-byte little-endian branch is dead
code behind that raise), and on an exhausted stream it raises `IndexError`. -/
theorem c7_amended_byte_or_4 :
    (∀ (b : Nat) (rest : List Nat), b ≠ 255 →
      readByteOr4 (b :: rest) = .ok (b, rest)) ∧
    (∀ rest : List Nat,
      readByteOr4 (255 :: rest)
        = .error (.notImplementedError
            "Untested feature, can remove comment and see if this still works :)")) ∧
    readByteOr4 [] = .error .indexError := by
  refine ⟨?_, ?_, rfl⟩
  · intro b rest hb
    simp [readByteOr4, hb]
  · intro rest
    simp [readByteOr4]

theorem c7_witness :
    readByteOr4 [7, 9] = .ok (7, [9]) :=
  c7_amended_byte_or_4.1 7 [9] (by decide)

/-- Little-endian byte values are bounded by `256 ^ length`. -/
theorem leNat_lt_pow (l : List Nat) (h : ∀ b ∈ l, b < 256) :
    leNat l < 256 ^ l.length := by
  induction l with
  | nil => simp [leNat]
  | cons b rest ih =>
    have hb : b < 256 := h b (List.mem_cons_self b rest)
    have hr : leNat rest < 256 ^ rest.length :=
      ih (fun x hx => h x (List.mem_cons_of_mem b hx))
    calc leNat (b :: rest) = b + 256 * leNat rest := rfl
      _ < 256 * (leNat rest + 1) := by omega
      _ ≤ 256 * 256 ^ rest.length :=
          Nat.mul_le_mul_left 256 (Nat.succ_le_of_lt hr)
      _ = 256 ^ (rest.length + 1) := (pow_succ' 256 rest.length).symm

/-- C8 counterexample: on a 2-byte source, `read(4)` returns 2 bytes with no
failure, and `read_u32` silently returns the little-endian value of those 2
bytes (513) — the claimed all-or-`TruncatedStream` contract does not hold. -/
theorem c8_counterexample :
    (readBytes [1, 2] 4).1.length ≠ 4 ∧ readU32 [1, 2] = (513, []) := by
  constructor
  · decide
  · rfl

/-- C8 amended: the cursor has no truncation check.  `read(n)` returns the
first `min n remaining` bytes without error (exactly `n` when enough bytes
remain); `read_u8` fails with `IndexError` (not a dedicated
`TruncatedStream`) on an exhausted source; `read_u32`/`read_u64` return the
little-endian value of at most 4/8 bytes — silently computed from however
many bytes remain when the source is short — and the value is below
`2 ^ 32` for `read_u32` on byte-valued data. -/
theorem c8_amended_cursor :
    (∀ (s : List Nat) (n : Nat), n ≤ s.length →
      (readBytes s n).1.length = n ∧ (readBytes s n).1 ++ (readBytes s n).2 = s) ∧
    (∀ (s : List Nat) (n : Nat), (readBytes s n).1.length = min n s.length) ∧
    (readU8 [] = .error .indexError) ∧
    (∀ (b : Nat) (rest : List Nat), readU8 (b :: rest) = .ok (b, rest)) ∧
    (∀ s : List Nat, (∀ b ∈ s, b < 256) → (readU32 s).1 < 2 ^ 32) ∧
    (∀ s : List Nat, s.length < 4 → readU32 s = (leNat s, [])) ∧
    (∀ s : List Nat, s.length < 8 → readU64 s = (leNat s, [])) := by
  refine ⟨?_, ?_, rfl, ?_, ?_, ?_, ?_⟩
  · intro s n hn
    constructor
    · simp [readBytes, List.length_take]
      omega
    · simp [readBytes]
  · intro s n
    simp [readBytes, List.length_take]
  · intro b rest
    rfl
  · intro s hs
    have h1 : leNat (s.take 4) < 256 ^ (s.take 4).length :=
      leNat_lt_pow _ (fun b hb => hs b ((List.take_sublist 4 s).subset hb))
    have h2 : (s.take 4).length ≤ 4 := by
      simp [List.length_take]
    calc (readU32 s).1 = leNat (s.take 4) := rfl
      _ < 256 ^ (s.take 4).length := h1
      _ ≤ 256 ^ 4 := Nat.pow_le_pow_right (by norm_num) h2
      _ = 2 ^ 32 := by norm_num
  · intro s hlen
    have h4 : s.length ≤ 4 := by omega
    simp [readU32, readBytes, List.take_of_length_le h4,
      List.drop_eq_nil_of_le h4]
  · intro s hlen
    have h8 : s.length ≤ 8 := by omega
    simp [readU64, readBytes, List.take_of_length_le h8,
      List.drop_eq_nil_of_le h8]

theorem c8_witness :
    ((readBytes [1, 2, 3] 2).1.length = 2
      ∧ (readBytes [1, 2, 3] 2).1 ++ (readBytes [1, 2, 3] 2).2 = [1, 2, 3])
    ∧ (readU32 [0, 0, 0, 1, 9]).1 < 2 ^ 32
    ∧ readU32 [5] = (5, []) :=
  ⟨c8_amended_cursor.1 [1, 2, 3] 2 (by decide),
   c8_amended_cursor.2.2.2.2.1 [0, 0, 0, 1, 9] (by decide),
   c8_amended_cursor.2.2.2.2.2.1 [5] (by decide)⟩

/-- C9 counterexample: the magic bytes `FF FF FF FF` match none of the three
signatures, but instead of the `ValueError` (`FormatMismatch`) the parser
escapes with a `UnicodeDecodeError`, raised while the error message
interpolates `magic.decode()`. -/
theorem c9_counterexample :
    magicCheck [255, 255, 255, 255] = .error .unicodeDecodeError
    ∧ magicCheck [255, 255, 255, 255]
        ≠ .error (.valueError "is not a known EverythingDB file. Magic:"
            [255, 255, 255, 255]) := by
  constructor
  · rfl
  · intro hc
    rw [show magicCheck [255, 255, 255, 255] = .error .unicodeDecodeError
        from rfl] at hc
    injection hc with h2
    exact PErr.noConfusion h2

/-- C9 amended: the legacy magic fails with `NotImplementedError`
(`UnsupportedLegacyFormat`); any other unrecognized 4-byte prefix fails with
the `ValueError` carrying the decoded magic only when the magic bytes are
valid UTF-8 — when they are not, a `UnicodeDecodeError` escapes from
building the message instead; the supported magic is accepted. -/
theorem c9_amended_magic_dispatch :
    (magicCheck UNSUPPORTED_FILE_MAGIC
      = .error (.notImplementedError "EZDB files are not yet supported")) ∧
    (∀ m : List Nat, m ≠ UNSUPPORTED_FILE_MAGIC → m ≠ FILE_MAGIC →
      utf8Valid m = true →
      magicCheck m
        = .error (.valueError "is not a known EverythingDB file. Magic:" m)) ∧
    (∀ m : List Nat, m ≠ UNSUPPORTED_FILE_MAGIC → m ≠ FILE_MAGIC →
      utf8Valid m = false →
      magicCheck m = .error .unicodeDecodeError) ∧
    magicCheck FILE_MAGIC = .ok () := by
  refine ⟨rfl, ?_, ?_, rfl⟩ <;> intro m h1 h2 h3 <;>
    simp [magicCheck, h1, h2, h3]

theorem c9_witness :
    magicCheck [65, 66, 67, 68]
      = .error (.valueError "is not a known EverythingDB file. Magic:"
          [65, 66, 67, 68])
    ∧ magicCheck [255, 0, 0, 0] = .error .unicodeDecodeError :=
  ⟨c9_amended_magic_dispatch.2.1 [65, 66, 67, 68]
      (by decide) (by decide) (by decide),
   c9_amended_magic_dispatch.2.2.1 [255, 0, 0, 0]
      (by decide) (by decide) (by decide)⟩

/-- Inversion of a successful `fileStep`: the parent index was in range, the
parent folder resolved, the name step succeeded with the new rolling buffer
`out.2.1`, and the optional record is fully determined by whether the new
buffer decodes as UTF-8. -/
theorem fileStep_inv {st : PState} {fl : List EverythingIndexObj}
    {buf s : List Nat} {out : Option EverythingF × List Nat × List Nat}
    (h : fileStep st fl buf s = .ok out) :
    (readU32 s).1 < st.number_of_folders ∧
    ∃ po pp s2,
      fl.get? (readU32 s).1 = some po ∧
      resolvePath fl (fl.length + 1) po = .ok pp ∧
      nameStep "Invalid file code offset" buf (readU32 s).2
        = .ok (out.2.1, s2) ∧
      out.2.2 = (readFileMeta st s2).2 ∧
      (utf8Valid out.2.1 = true →
        out.1 = some { file_path := pp ++ 92 :: out.2.1
                       size := (readFileMeta st s2).1.1
                       date_created := wintsOrNone (readFileMeta st s2).1.2.1
                       date_modified := wintsOrNone (readFileMeta st s2).1.2.2.1
                       date_accessed :=
                         wintsOrNone (readFileMeta st s2).1.2.2.2.1
                       attributes := (readFileMeta st s2).1.2.2.2.2
                       file_type := FILE }) ∧
      (utf8Valid out.2.1 = false → out.1 = none) := by
  simp only [fileStep] at h
  by_cases h1 : st.total_filesystem_num + st.number_of_folders < (readU32 s).1
  · rw [if_pos h1] at h
    exact Except.noConfusion h
  rw [if_neg h1] at h
  by_cases h2 : st.number_of_folders ≤ (readU32 s).1
  · rw [if_pos h2] at h
    exact Except.noConfusion h
  rw [if_neg h2] at h
  refine ⟨Nat.lt_of_not_le h2, ?_⟩
  split at h
  · exact Except.noConfusion h
  rename_i po hget
  split at h
  · exact Except.noConfusion h
  rename_i pp hrp
  split at h
  · exact Except.noConfusion h
  rename_i buf1 s2 hns
  by_cases hu : utf8Valid buf1 = true
  · rw [if_pos hu] at h
    injection h with h3
    subst h3
    exact ⟨po, pp, s2, hget, hrp, hns, rfl, fun _ => rfl,
      fun hf => Bool.noConfusion (hu.symm.trans hf)⟩
  · rw [if_neg hu] at h
    injection h with h3
    subst h3
    exact ⟨po, pp, s2, hget, hrp, hns, rfl,
      fun ht => absurd ht hu, fun _ => rfl⟩

/-- C10: zero-timestamp suppression.  At both emission sites the raw value
feeds through `wintimestamp(x) if x else None`: a set date flag whose raw
64-bit value is `0` emits `None` rather than the calendar conversion of 0,
and the conversion is applied only to nonzero raw values; the folder
emission applies this map to each stored date field, and every emitted file
record's date fields are images of this map. -/
theorem c10_zero_timestamp_suppression :
    (wintsOrNone (some 0) = none) ∧
    (∀ v : Nat, v ≠ 0 → wintsOrNone (some v) = some v) ∧
    (wintsOrNone none = none) ∧
    (∀ (p : List Nat) (o : EverythingIndexObj),
      (mkDirRecord p o).date_created = wintsOrNone o.date_created ∧
      (mkDirRecord p o).date_modified = wintsOrNone o.date_modified ∧
      (mkDirRecord p o).date_accessed = wintsOrNone o.date_accessed) ∧
    (∀ (st : PState) (fl : List EverythingIndexObj) (buf s : List Nat)
        (r : EverythingF) (buf1 s1 : List Nat),
      fileStep st fl buf s = .ok (some r, buf1, s1) →
      ∃ dc dm da : Option Nat,
        r.date_created = wintsOrNone dc ∧ r.date_modified = wintsOrNone dm ∧
        r.date_accessed = wintsOrNone da) := by
  refine ⟨rfl, ?_, rfl, ?_, ?_⟩
  · intro v hv
    simp [wintsOrNone, hv]
  · intro p o
    exact ⟨rfl, rfl, rfl⟩
  · intro st fl buf s r buf1 s1 h
    obtain ⟨-, po, pp, s2, -, -, -, -, hpos, hneg⟩ := fileStep_inv h
    by_cases hu : utf8Valid buf1 = true
    · have h4 := hpos hu
      injection h4 with h5
      exact ⟨(readFileMeta st s2).1.2.1, (readFileMeta st s2).1.2.2.1,
        (readFileMeta st s2).1.2.2.2.1, by rw [h5], by rw [h5], by rw [h5]⟩
    · have := hneg (Bool.of_not_eq_true hu)
      exact Option.noConfusion this

theorem c10_witness :
    wintsOrNone (some 7) = some 7
    ∧ (∃ dc dm da : Option Nat,
        (none : Option Nat) = wintsOrNone dc
        ∧ (none : Option Nat) = wintsOrNone dm
        ∧ (none : Option Nat) = wintsOrNone da) :=
  ⟨c10_zero_timestamp_suppression.2.1 7 (by decide),
   c10_zero_timestamp_suppression.2.2.2.2
     ⟨0, 1, 1, 1, [EverythingFSType.FOLDER]⟩
     [{ file_path := [65], parent_index := none }] [] [0, 0, 0, 0, 1, 0, 66]
     { file_path := [65, 92, 66], size := none, date_created := none,
       date_modified := none, date_accessed := none, attributes := none,
       file_type := FILE } [66] [] (by rfl)⟩

/-- C3: Parent-reference bounds.  A folder entry whose raw 32-bit parent
reference is at least `folder_count + filesystem_count` fails with
`CorruptIndex` (`ValueError`); a reference in
`[folder_count, folder_count + filesystem_count)` marks a filesystem root
with filesystem index `ref - folder_count`; a smaller reference is a folder
parent.  A file entry whose explicit 32-bit parent index is at least
`folder_count` always fails with `CorruptIndex` (one of the two
`ValueError` checks fires). -/
theorem c3_parent_reference_bounds :
    (∀ (nf fsn : Nat) (s : List Nat), fsn + nf ≤ (readU32 s).1 →
      folderLinkStep nf fsn s = .error (.valueError "Invalid folder offset" [])) ∧
    (∀ (nf fsn : Nat) (s : List Nat),
      nf ≤ (readU32 s).1 → (readU32 s).1 < fsn + nf →
      folderLinkStep nf fsn s
        = .ok (({ fs_index := some ((readU32 s).1 - nf) }
            : EverythingIndexObj), (readU32 s).2)) ∧
    (∀ (nf fsn : Nat) (s : List Nat), (readU32 s).1 < nf →
      folderLinkStep nf fsn s
        = .ok (({ parent_index := some (readU32 s).1 }
            : EverythingIndexObj), (readU32 s).2)) ∧
    (∀ (st : PState) (fl : List EverythingIndexObj) (buf s : List Nat),
      st.number_of_folders ≤ (readU32 s).1 →
      ∃ m, fileStep st fl buf s = .error (.valueError m [])) := by
  refine ⟨?_, ?_, ?_, ?_⟩
  · intro nf fsn s hge
    simp only [folderLinkStep]
    rw [if_pos hge]
  · intro nf fsn s h1 h2
    simp only [folderLinkStep]
    rw [if_neg (Nat.not_le.mpr h2), if_pos h1]
  · intro nf fsn s hlt
    simp only [folderLinkStep]
    rw [if_neg (Nat.not_le.mpr (Nat.lt_of_lt_of_le hlt (Nat.le_add_left nf fsn))),
      if_neg (Nat.not_le.mpr hlt)]
  · intro st fl buf s hge
    by_cases h1 : st.total_filesystem_num + st.number_of_folders < (readU32 s).1
    · refine ⟨"Invalid parent folder offset", ?_⟩
      simp only [fileStep]
      rw [if_pos h1]
    · refine ⟨"Something weird, this points to filesystem_index", ?_⟩
      simp only [fileStep]
      rw [if_neg h1, if_pos hge]

theorem c3_witness :
    folderLinkStep 2 1 [3, 0, 0, 0]
      = .error (.valueError "Invalid folder offset" [])
    ∧ folderLinkStep 2 1 [2, 0, 0, 0]
        = .ok (({ fs_index := some 0 } : EverythingIndexObj), [])
    ∧ folderLinkStep 2 1 [1, 0, 0, 0]
        = .ok (({ parent_index := some 1 } : EverythingIndexObj), [])
    ∧ (∃ m, fileStep ⟨0, 2, 0, 1, [EverythingFSType.FOLDER]⟩ [] [] [2, 0, 0, 0]
        = .error (.valueError m [])) :=
  ⟨c3_parent_reference_bounds.1 2 1 [3, 0, 0, 0] (by decide),
   c3_parent_reference_bounds.2.1 2 1 [2, 0, 0, 0] (by decide) (by decide),
   c3_parent_reference_bounds.2.2.1 2 1 [1, 0, 0, 0] (by decide),
   c3_parent_reference_bounds.2.2.2 ⟨0, 2, 0, 1, [EverythingFSType.FOLDER]⟩
     [] [] [2, 0, 0, 0] (by decide)⟩

/-- The folder-emission pass yields, at every table index, the Directory
record built from that folder's resolved path, in table order. -/
theorem phaseDAux_spec (fl0 : List EverythingIndexObj) :
    ∀ (l : List EverythingIndexObj) (rs : List EverythingF),
      phaseDAux fl0 l = .ok rs →
      rs.length = l.length ∧
      (∀ r ∈ rs, r.file_type = DIRECTORY) ∧
      (∀ (i : Nat) (o : EverythingIndexObj), l.get? i = some o →
        ∃ p, resolvePath fl0 (fl0.length + 1) o = .ok p ∧
          rs.get? i = some (mkDirRecord p o)) := by
  intro l
  induction l with
  | nil =>
    intro rs h
    simp only [phaseDAux] at h
    injection h with h1
    subst h1
    refine ⟨rfl, ?_, ?_⟩
    · intro r hr
      exact absurd hr (List.not_mem_nil r)
    · intro i o ho
      exact absurd ho (by simp)
  | cons o os ih =>
    intro rs h
    simp only [phaseDAux] at h
    split at h
    · exact Except.noConfusion h
    rename_i p hrp
    split at h
    · exact Except.noConfusion h
    rename_i rs0 hrec
    injection h with h1
    subst h1
    obtain ⟨hlen, hty, hidx⟩ := ih rs0 hrec
    refine ⟨by simp [hlen], ?_, ?_⟩
    · intro r hr
      rcases List.mem_cons.mp hr with h | h
      · subst h
        rfl
      · exact hty r h
    · intro i o1 ho
      cases i with
      | zero =>
        simp only [List.get?_cons_zero] at ho
        injection ho with h2
        subst h2
        exact ⟨p, hrp, rfl⟩
      | succ j =>
        simp only [List.get?_cons_succ] at ho
        exact hidx j o1 ho

/-- C4: Path composition.  A folder with a folder parent resolves to its
parent's resolved path, one backslash (byte 92), and its own basename; a
filesystem-root folder (no folder parent) resolves to exactly its own
basename; every record of the folder-emission pass carries its folder's
resolved path; and every emitted file record's path is the parent folder's
resolved path, a backslash, and the file's decoded basename. -/
theorem c4_path_composition :
    (∀ (fl : List EverythingIndexObj) (fuel : Nat) (o po : EverythingIndexObj)
        (p : Nat) (pp : List Nat),
      o.parent_index = some p → fl.get? p = some po →
      resolvePath fl fuel po = .ok pp →
      resolvePath fl (fuel + 1) o = .ok (pp ++ 92 :: o.file_path)) ∧
    (∀ (fl : List EverythingIndexObj) (fuel : Nat) (o : EverythingIndexObj),
      o.parent_index = none → resolvePath fl (fuel + 1) o = .ok o.file_path) ∧
    (∀ (fl : List EverythingIndexObj) (rs : List EverythingF),
      phaseD fl = .ok rs →
      ∀ (i : Nat) (o : EverythingIndexObj), fl.get? i = some o →
        ∃ p, resolvePath fl (fl.length + 1) o = .ok p ∧
          rs.get? i = some (mkDirRecord p o)) ∧
    (∀ (st : PState) (fl : List EverythingIndexObj) (buf s : List Nat)
        (r : EverythingF) (buf1 s1 : List Nat),
      fileStep st fl buf s = .ok (some r, buf1, s1) →
      ∃ po pp, fl.get? (readU32 s).1 = some po ∧
        resolvePath fl (fl.length + 1) po = .ok pp ∧
        r.file_path = pp ++ 92 :: buf1) := by
  refine ⟨?_, ?_, ?_, ?_⟩
  · intro fl fuel o po p pp hpi hget hrp
    simp only [resolvePath, hpi, hget, hrp]
  · intro fl fuel o hpi
    simp only [resolvePath, hpi]
  · intro fl rs h i o ho
    exact (phaseDAux_spec fl fl rs h).2.2 i o ho
  · intro st fl buf s r buf1 s1 h
    obtain ⟨-, po, pp, s2, hget, hrp, -, -, hpos, hneg⟩ := fileStep_inv h
    by_cases hu : utf8Valid buf1 = true
    · have h4 := hpos hu
      injection h4 with h5
      exact ⟨po, pp, hget, hrp, by rw [h5]⟩
    · exact Option.noConfusion (hneg (Bool.of_not_eq_true hu))

theorem c4_witness :
    resolvePath
        [{ file_path := [67], parent_index := none },
         { file_path := [68], parent_index := some 0 }] 2
        { file_path := [68], parent_index := some 0 }
      = .ok [67, 92, 68]
    ∧ resolvePath
        [{ file_path := [67], parent_index := none },
         { file_path := [68], parent_index := some 0 }] 1
        { file_path := [67], parent_index := none }
      = .ok [67]
    ∧ (∃ p, resolvePath [{ file_path := [65], parent_index := none }] 2
          { file_path := [65], parent_index := none } = .ok p
        ∧ [mkDirRecord [65]
            ({ file_path := [65], parent_index := none }
              : EverythingIndexObj)].get? 0
          = some (mkDirRecord p
              ({ file_path := [65], parent_index := none }
                : EverythingIndexObj)))
    ∧ (∃ po pp,
        ([{ file_path := [65], parent_index := none }]
          : List EverythingIndexObj).get? (readU32 [0, 0, 0, 0, 1, 0, 66]).1
          = some po
        ∧ resolvePath [{ file_path := [65], parent_index := none }] 2 po
          = .ok pp
        ∧ ({ file_path := [65, 92, 66], size := none, date_created := none,
             date_modified := none, date_accessed := none, attributes := none,
             file_type := FILE } : EverythingF).file_path
          = pp ++ 92 :: [66]) :=
  ⟨c4_path_composition.1
      [{ file_path := [67], parent_index := none },
       { file_path := [68], parent_index := some 0 }] 1
      { file_path := [68], parent_index := some 0 }
      { file_path := [67], parent_index := none } 0 [67] rfl rfl rfl,
   c4_path_composition.2.1
      [{ file_path := [67], parent_index := none },
       { file_path := [68], parent_index := some 0 }] 0
      { file_path := [67], parent_index := none } rfl,
   c4_path_composition.2.2.1 [{ file_path := [65], parent_index := none }]
      [mkDirRecord [65] { file_path := [65], parent_index := none }]
      (by rfl) 0 { file_path := [65], parent_index := none } rfl,
   c4_path_composition.2.2.2 ⟨0, 1, 1, 1, [EverythingFSType.FOLDER]⟩
      [{ file_path := [65], parent_index := none }] [] [0, 0, 0, 0, 1, 0, 66]
      { file_path := [65, 92, 66], size := none, date_created := none,
        date_modified := none, date_accessed := none, attributes := none,
        file_type := FILE } [66] [] (by rfl)⟩

/-- The flag-gated metadata reads leave linkage and name untouched, and
leave the attributes field set whenever it was set before (the folder pass
sets the hardcoded 16 first, the flag read only overrides it). -/
theorem readFolderMeta_preserves (st : PState) (o : EverythingIndexObj)
    (s : List Nat) :
    (readFolderMeta st o s).1.fs_index = o.fs_index ∧
    (readFolderMeta st o s).1.parent_index = o.parent_index ∧
    (readFolderMeta st o s).1.file_path = o.file_path ∧
    ((readFolderMeta st o s).1.attributes = o.attributes ∨
      ∃ v, (readFolderMeta st o s).1.attributes = some v) := by
  by_cases h1 : hasFlag st.flags HasFolderSize
  all_goals by_cases h2 : hasFlag st.flags HasDateCreated
  all_goals by_cases h3 : hasFlag st.flags HasDateModified
  all_goals by_cases h4 : hasFlag st.flags HasDateAccessed
  all_goals by_cases h5 : hasFlag st.flags HasAttributes
  all_goals simp [readFolderMeta, h1, h2, h3, h4, h5]

/-- C6: a folder resolving to an EFU filesystem with no folder parent has
its size and all three dates discarded (set to null) by `folderStep`,
independently of the flag bits and of the raw metadata bytes read, while
its attributes field survives; the emitted Directory record built from it
therefore has null size/created/modified/accessed and keeps the
attributes. -/
theorem c6_efu_root_metadata (st : PState) (o o3 : EverythingIndexObj)
    (buf s buf1 s3 : List Nat) (i : Nat)
    (hfs : o.fs_index = some i)
    (hkind : st.filesystem_list.get? i = some .EFU)
    (hroot : o.parent_index = none)
    (h : folderStep st o buf s = .ok (o3, buf1, s3)) :
    o3.size = none ∧ o3.date_created = none ∧ o3.date_modified = none ∧
    o3.date_accessed = none ∧ o3.attributes.isSome = true ∧
    (∀ p : List Nat,
      (mkDirRecord p o3).size = none
      ∧ (mkDirRecord p o3).date_created = none
      ∧ (mkDirRecord p o3).date_modified = none
      ∧ (mkDirRecord p o3).date_accessed = none
      ∧ (mkDirRecord p o3).attributes = o3.attributes) := by
  simp only [folderStep] at h
  split at h
  · exact Except.noConfusion h
  rename_i buf1a s1 hns
  by_cases hu : utf8Valid buf1a = true
  case neg =>
    rw [if_neg hu] at h
    exact Except.noConfusion h
  rw [if_pos hu] at h
  split at h
  · exact Except.noConfusion h
  rename_i o3a s3a htail
  injection h with h1
  injection h1 with h2 h3
  have hpre := readFolderMeta_preserves st
    { o with file_path := buf1a, attributes := some 16 } s1
  have hfsx : (readFolderMeta st
      { o with file_path := buf1a, attributes := some 16 } s1).1.fs_index
      = some i := hpre.1.trans hfs
  have hpx : (readFolderMeta st
      { o with file_path := buf1a, attributes := some 16 } s1).1.parent_index
      = none := hpre.2.1.trans hroot
  have htail2 : folderFsTail st
      (readFolderMeta st { o with file_path := buf1a, attributes := some 16 } s1).1
      (readFolderMeta st { o with file_path := buf1a, attributes := some 16 } s1).2
      = .ok ({ (readFolderMeta st
            { o with file_path := buf1a, attributes := some 16 } s1).1 with
            date_accessed := none, date_modified := none,
            date_created := none, size := none },
          (readFolderMeta st
            { o with file_path := buf1a, attributes := some 16 } s1).2) := by
    simp only [folderFsTail, hfsx, hkind, hpx]
    simp
  have h6 := htail2.symm.trans htail
  injection h6 with h7
  injection h7 with h8 h9
  have ho3 : o3 = { (readFolderMeta st
      { o with file_path := buf1a, attributes := some 16 } s1).1 with
      date_accessed := none, date_modified := none,
      date_created := none, size := none } := h2.symm.trans h8.symm
  subst ho3
  refine ⟨rfl, rfl, rfl, rfl, ?_, fun p => ⟨rfl, rfl, rfl, rfl, rfl⟩⟩
  rcases hpre.2.2.2 with ha | ⟨v, ha⟩
  · simp only [ha]
    rfl
  · simp only [ha]
    rfl

theorem c6_witness :
    ∃ o3 : EverythingIndexObj,
      folderStep ⟨2, 1, 0, 1, [EverythingFSType.EFU]⟩
          { fs_index := some 0, parent_index := none } []
          [1, 0, 65, 7, 0, 0, 0, 0, 0, 0, 0]
        = .ok (o3, [65], [])
      ∧ o3.size = none ∧ o3.date_created = none ∧ o3.date_modified = none ∧
        o3.date_accessed = none ∧ o3.attributes.isSome = true :=
  ⟨{ fs_index := some 0, file_path := [65], parent_index := none,
     size := none, date_created := none, date_modified := none,
     date_accessed := none, attributes := some 16 },
   by rfl,
   (c6_efu_root_metadata ⟨2, 1, 0, 1, [EverythingFSType.EFU]⟩
      { fs_index := some 0, parent_index := none }
      { fs_index := some 0, file_path := [65], parent_index := none,
        size := none, date_created := none, date_modified := none,
        date_accessed := none, attributes := some 16 }
      [] [1, 0, 65, 7, 0, 0, 0, 0, 0, 0, 0] [65] [] 0
      rfl rfl rfl (by rfl)).1,
   (c6_efu_root_metadata ⟨2, 1, 0, 1, [EverythingFSType.EFU]⟩
      { fs_index := some 0, parent_index := none }
      { fs_index := some 0, file_path := [65], parent_index := none,
        size := none, date_created := none, date_modified := none,
        date_accessed := none, attributes := some 16 }
      [] [1, 0, 65, 7, 0, 0, 0, 0, 0, 0, 0] [65] [] 0
      rfl rfl rfl (by rfl)).2.1,
   (c6_efu_root_metadata ⟨2, 1, 0, 1, [EverythingFSType.EFU]⟩
      { fs_index := some 0, parent_index := none }
      { fs_index := some 0, file_path := [65], parent_index := none,
        size := none, date_created := none, date_modified := none,
        date_accessed := none, attributes := some 16 }
      [] [1, 0, 65, 7, 0, 0, 0, 0, 0, 0, 0] [65] [] 0
      rfl rfl rfl (by rfl)).2.2.1,
   (c6_efu_root_metadata ⟨2, 1, 0, 1, [EverythingFSType.EFU]⟩
      { fs_index := some 0, parent_index := none }
      { fs_index := some 0, file_path := [65], parent_index := none,
        size := none, date_created := none, date_modified := none,
        date_accessed := none, attributes := some 16 }
      [] [1, 0, 65, 7, 0, 0, 0, 0, 0, 0, 0] [65] [] 0
      rfl rfl rfl (by rfl)).2.2.2.1,
   (c6_efu_root_metadata ⟨2, 1, 0, 1, [EverythingFSType.EFU]⟩
      { fs_index := some 0, parent_index := none }
      { fs_index := some 0, file_path := [65], parent_index := none,
        size := none, date_created := none, date_modified := none,
        date_accessed := none, attributes := some 16 }
      [] [1, 0, 65, 7, 0, 0, 0, 0, 0, 0, 0] [65] [] 0
      rfl rfl rfl (by rfl)).2.2.2.2.1⟩

/-- Phase A produces exactly the declared number of folder slots. -/
theorem phaseA_length (nf fsn : Nat) :
    ∀ (n : Nat) (s : List Nat) (fl : List EverythingIndexObj) (s1 : List Nat),
      phaseA nf fsn n s = .ok (fl, s1) → fl.length = n := by
  intro n
  induction n with
  | zero =>
    intro s fl s1 h
    simp only [phaseA] at h
    injection h with h1
    injection h1 with h2 h3
    rw [← h2]
    rfl
  | succ m ih =>
    intro s fl s1 h
    simp only [phaseA] at h
    split at h
    · exact Except.noConfusion h
    rename_i o s2 hstep
    split at h
    · exact Except.noConfusion h
    rename_i os s3 hrec
    injection h with h1
    injection h1 with h2 h3
    rw [← h2]
    simp [ih _ _ _ hrec]

/-- Phase B preserves the folder-table length (it only sets `fs_index`). -/
theorem phaseBAux_length :
    ∀ (n : Nat) (fl : List EverythingIndexObj) (i : Nat)
      (fl1 : List EverythingIndexObj),
      phaseBAux fl i n = .ok fl1 → fl1.length = fl.length := by
  intro n
  induction n with
  | zero =>
    intro fl i fl1 h
    simp only [phaseBAux] at h
    injection h with h1
    rw [← h1]
  | succ m ih =>
    intro fl i fl1 h
    simp only [phaseBAux] at h
    split at h
    · injection h with h1
      rw [← h1]
    rename_i o hget
    split at h
    · exact Except.noConfusion h
    rename_i fs hres
    have := ih _ _ _ h
    rw [this, List.length_set]

/-- Phase C preserves the folder-table length. -/
theorem phaseC_length (st : PState) :
    ∀ (l : List EverythingIndexObj) (buf s : List Nat)
      (l1 : List EverythingIndexObj) (buf1 s1 : List Nat),
      phaseC st l buf s = .ok (l1, buf1, s1) → l1.length = l.length := by
  intro l
  induction l with
  | nil =>
    intro buf s l1 buf1 s1 h
    simp only [phaseC] at h
    injection h with h1
    injection h1 with h2 h3
    rw [← h2]
  | cons o os ih =>
    intro buf s l1 buf1 s1 h
    simp only [phaseC] at h
    split at h
    · exact Except.noConfusion h
    rename_i o1 b1 s2 hstep
    split at h
    · exact Except.noConfusion h
    rename_i os1 b2 s3 hrec
    injection h with h1
    injection h1 with h2 h3
    rw [← h2]
    simp [ih _ _ _ _ _ hrec]

/-- Phase E yields one optional record per file entry, and every emitted
record of the file pass is a File record. -/
theorem phaseE_spec (st : PState) (fl : List EverythingIndexObj) :
    ∀ (n : Nat) (buf s : List Nat) (opts : List (Option EverythingF))
      (buf1 s1 : List Nat),
      phaseE st fl n buf s = .ok (opts, buf1, s1) →
      opts.length = n ∧ (∀ r ∈ opts.filterMap id, r.file_type = FILE) := by
  intro n
  induction n with
  | zero =>
    intro buf s opts buf1 s1 h
    simp only [phaseE] at h
    injection h with h1
    injection h1 with h2 h3
    rw [← h2]
    refine ⟨rfl, ?_⟩
    intro r hr
    simp at hr
  | succ m ih =>
    intro buf s opts buf1 s1 h
    simp only [phaseE] at h
    split at h
    · exact Except.noConfusion h
    rename_i r0 b1 s2 hstep
    split at h
    · exact Except.noConfusion h
    rename_i rs b2 s3 hrec
    injection h with h1
    injection h1 with h2 h3
    rw [← h2]
    obtain ⟨hlen, hty⟩ := ih _ _ _ _ _ hrec
    refine ⟨by simp [hlen], ?_⟩
    intro r hr
    cases r0 with
    | none =>
      have hr2 : some r ∈ rs := by simpa using hr
      exact hty r (List.mem_filterMap.mpr ⟨some r, hr2, rfl⟩)
    | some x =>
      have hr2 : r = x ∨ some r ∈ rs := by simpa using hr
      rcases hr2 with hhd | htl
    -- head came from a successful decode in `fileStep`
      · subst hhd
        obtain ⟨-, po, pp, s2x, -, -, -, -, hpos, hneg⟩ := fileStep_inv hstep
        by_cases hu : utf8Valid b1 = true
        · have h4 := hpos hu
          injection h4 with h5
          rw [h5]
        · exact Option.noConfusion (hneg (Bool.of_not_eq_true hu))
      · exact hty r (List.mem_filterMap.mpr ⟨some r, htl, rfl⟩)

/-- Emitted file records plus skipped (undecodable) entries account for all
file entries. -/
theorem filterMap_id_length_add_countP (l : List (Option EverythingF)) :
    (l.filterMap id).length + l.countP (fun x => x.isNone) = l.length := by
  induction l with
  | nil => simp
  | cons x xs ih =>
    cases x with
    | none =>
      have h1 : List.filterMap id ((none : Option EverythingF) :: xs)
          = List.filterMap id xs := rfl
      rw [h1, List.countP_cons]
      simp only [Option.isNone_none, if_true, List.length_cons]
      omega
    | some a =>
      have h1 : List.filterMap id (some a :: xs) = a :: List.filterMap id xs :=
        rfl
      rw [h1, List.countP_cons]
      simp only [Option.isNone_some, List.length_cons]
      simp
      omega

/-- C5: Emission contract.  A successful parse yields exactly
`folder_count` Directory records, all before any File record, each group in
table order (the folder group indexed by `phaseDAux_spec`, the file group by
`phaseE`); the File records number `file_count` minus the skipped entries,
and an entry is skipped exactly when its basename bytes fail to decode,
while the rolling buffer/stream state advances identically either way. -/
theorem c5_emission_contract (st : PState) (s : List Nat)
    (recs : List EverythingF) (h : iterParse st s = .ok recs) :
    ∃ (fl : List EverythingIndexObj) (s2 : List Nat)
      (dirs : List EverythingF) (fopts : List (Option EverythingF))
      (bufE sE : List Nat),
      fl.length = st.number_of_folders ∧
      phaseD fl = .ok dirs ∧
      phaseE st fl st.number_of_files [] s2 = .ok (fopts, bufE, sE) ∧
      recs = dirs ++ fopts.filterMap id ∧
      dirs.length = st.number_of_folders ∧
      (∀ r ∈ dirs, r.file_type = DIRECTORY) ∧
      fopts.length = st.number_of_files ∧
      (∀ r ∈ fopts.filterMap id, r.file_type = FILE) ∧
      (fopts.filterMap id).length + fopts.countP (fun x => x.isNone)
        = st.number_of_files ∧
      (∀ (buf0 s0 : List Nat) (out : Option EverythingF × List Nat × List Nat),
        fileStep st fl buf0 s0 = .ok out →
        (out.1 = none ↔ utf8Valid out.2.1 = false)) := by
  simp only [iterParse] at h
  split at h
  · exact Except.noConfusion h
  rename_i fl1 s1 hA
  split at h
  · exact Except.noConfusion h
  rename_i fl2 hB
  split at h
  · exact Except.noConfusion h
  rename_i fl3 bufC s2 hC
  split at h
  · exact Except.noConfusion h
  rename_i dirs hD
  split at h
  · exact Except.noConfusion h
  rename_i fopts bufE sE hE
  injection h with h1
  subst h1
  have hlen1 : fl1.length = st.number_of_folders :=
    phaseA_length _ _ _ _ _ _ hA
  have hlen2 : fl2.length = fl1.length := phaseBAux_length _ _ _ _ hB
  have hlen3 : fl3.length = fl2.length := phaseC_length st _ _ _ _ _ _ hC
  have hflen : fl3.length = st.number_of_folders := by
    rw [hlen3, hlen2, hlen1]
  obtain ⟨hDlen, hDty, -⟩ := phaseDAux_spec fl3 fl3 dirs hD
  obtain ⟨hElen, hEty⟩ := phaseE_spec st fl3 _ _ _ _ _ _ hE
  refine ⟨fl3, s2, dirs, fopts, bufE, sE, hflen, hD, hE, rfl, ?_, hDty,
    hElen, hEty, ?_, ?_⟩
  · rw [hDlen, hflen]
  · rw [filterMap_id_length_add_countP, hElen]
  · intro buf0 s0 out hstep
    obtain ⟨-, po, pp, s2x, -, -, -, -, hpos, hneg⟩ := fileStep_inv hstep
    constructor
    · intro hnone
      by_cases hu : utf8Valid out.2.1 = true
      · have h4 := hpos hu
        rw [hnone] at h4
        exact Option.noConfusion h4
      · exact Bool.of_not_eq_true hu
    · intro hf
      exact hneg hf

theorem c5_witness :
    ∃ (fl : List EverythingIndexObj) (s2 : List Nat)
      (dirs : List EverythingF) (fopts : List (Option EverythingF))
      (bufE sE : List Nat),
      fl.length = 1 ∧
      phaseD fl = .ok dirs ∧
      phaseE ⟨0, 1, 1, 1, [EverythingFSType.FOLDER]⟩ fl 1 [] s2
        = .ok (fopts, bufE, sE) ∧
      [({ file_path := [65], size := none, date_created := none,
          date_modified := none, date_accessed := none,
          attributes := some 16, file_type := DIRECTORY } : EverythingF),
       ({ file_path := [65, 92, 66], size := none, date_created := none,
          date_modified := none, date_accessed := none, attributes := none,
          file_type := FILE } : EverythingF)]
        = dirs ++ fopts.filterMap id ∧
      dirs.length = 1 ∧
      (∀ r ∈ dirs, r.file_type = DIRECTORY) ∧
      fopts.length = 1 ∧
      (∀ r ∈ fopts.filterMap id, r.file_type = FILE) ∧
      (fopts.filterMap id).length + fopts.countP (fun x => x.isNone) = 1 ∧
      (∀ (buf0 s0 : List Nat) (out : Option EverythingF × List Nat × List Nat),
        fileStep ⟨0, 1, 1, 1, [EverythingFSType.FOLDER]⟩ fl buf0 s0 = .ok out →
        (out.1 = none ↔ utf8Valid out.2.1 = false)) :=
  c5_emission_contract ⟨0, 1, 1, 1, [EverythingFSType.FOLDER]⟩
    [1, 0, 0, 0, 1, 0, 65, 0, 0, 0, 0, 1, 0, 66]
    [{ file_path := [65], size := none, date_created := none,
       date_modified := none, date_accessed := none, attributes := some 16,
       file_type := DIRECTORY },
     { file_path := [65, 92, 66], size := none, date_created := none,
       date_modified := none, date_accessed := none, attributes := none,
       file_type := FILE }] (by rfl)

end Everything
